import Mathlib

/-!
# Verification of the knowledge-graph construction pipeline

Shallow embedding of the deterministic core of
`src/chapter2/lesson11/knowledge_pipeline.py`: the `KnowledgeGraph` class
(`build_from_entities_and_triples`, `_should_filter_relation`,
`apply_entity_mapping`, `assess_quality`), the post-processing part of
`InformationExtractor.refine_and_relabel`, and the control flow of
`run_demo_pipeline`.

Python strings are embedded as `String`, Python dicts as association lists
with unique keys (insertion ordered, exactly like a Python `dict`), and the
`networkx.MultiDiGraph` as a list of named nodes plus a list of directed
edges carrying a predicate (a multigraph: duplicate edges are kept).
Fallible code (`add_node` keyword collisions raise `TypeError`) is embedded
with `Except`.
-/

namespace KnowledgePipeline

/-- A relation triple `{subject, predicate, object}` as produced by
extraction/refinement. -/
structure Triple where
  subject : String
  predicate : String
  object : String
deriving DecidableEq, Repr

/-- The payload stored on a graph node by `add_node(name, type=..,
description=.., **attributes)`: the entity type, description, and the
flattened attribute dictionary. -/
structure NodeData where
  type : String
  description : String
  attributes : List (String × String)
deriving DecidableEq, Repr

/-- An entity record as held in the entity map built by
`_parse_extraction_output` (the `name` field is the map key and is kept
outside the record). -/
structure Entity where
  type : String
  description : String
  attributes : List (String × String)
deriving DecidableEq, Repr

/-- A directed multigraph edge `(source, target)` with the `predicate`
edge-data, as inserted by `add_edge(sub, obj, predicate=pred)`. -/
structure Edge where
  src : String
  tgt : String
  predicate : String
deriving DecidableEq, Repr

/-- The `networkx.MultiDiGraph` state: the node dictionary (unique names,
insertion ordered) and the list of edges.  Parallel and duplicate edges are
preserved, exactly as in a multigraph. -/
structure KGraph where
  nodes : List (String × NodeData)
  edges : List Edge
deriving DecidableEq, Repr

/-- Names of the current nodes, in insertion order. -/
def nodeNames (g : KGraph) : List String := g.nodes.map Prod.fst

/-- `graph.number_of_nodes()`: the node dictionary always has unique keys,
so this is the length of the node list. -/
def number_of_nodes (g : KGraph) : Nat := g.nodes.length

/-- The copula/membership predicates filtered by
`_should_filter_relation` (source line: `['是', 'is', 'be', '属于', 'belong']`). -/
def filterPredicates : List String := ["是", "is", "be", "属于", "belong"]

/-- Python `str.lower`: lower-case every character.  This is pointwise the
same function as `String.toLower` (`Char.toLower` mapped over the
characters) but is written over the character list so that it reduces in
the kernel. -/
def lowerString (s : String) : String := ⟨s.data.map Char.toLower⟩

/-- Python `str.strip`: drop leading and trailing whitespace.  Same
semantics as `String.trim`, written over the character list so that it
reduces in the kernel. -/
def pyStrip (s : String) : String :=
  ⟨((s.data.dropWhile Char.isWhitespace).reverse.dropWhile
      Char.isWhitespace).reverse⟩

/-- `KnowledgeGraph._should_filter_relation`: drop self-loops
(`subject == object`), copula predicates (after lower-casing), and trimmed
predicates of length at most one. -/
def should_filter_relation (subject predicate object : String) : Bool :=
  subject == object
    || filterPredicates.contains (lowerString predicate)
    || (pyStrip predicate).length ≤ 1

/-- Python truthiness test `all([sub, pred, obj])` on the three fields of a
triple: all three strings must be non-empty. -/
def truthy (t : Triple) : Bool :=
  t.subject ≠ "" && t.predicate ≠ "" && t.object ≠ ""

/-- `dict` upsert used to model keyword-argument updates: keys already
present are overwritten in place, fresh keys are appended. -/
def updateAttrs (base upd : List (String × String)) : List (String × String) :=
  upd.foldl (fun acc kv =>
    if acc.any (fun kv2 => kv2.1 == kv.1) then
      acc.map (fun kv2 => if kv2.1 == kv.1 then (kv2.1, kv.2) else kv2)
    else acc ++ [kv]) base

/-- `add_node` on an existing node updates the stored attribute dictionary
with the newly supplied one (new values win, other keys survive). -/
def mergeNodeData (existing new : NodeData) : NodeData :=
  { type := new.type
    description := new.description
    attributes := updateAttrs existing.attributes new.attributes }

/-- Insert `(name, d)` into a node dictionary: update the record in place if
the name exists, append it otherwise (the `add_node` semantics). -/
def insNode (acc : List (String × NodeData)) (name : String) (d : NodeData) :
    List (String × NodeData) :=
  if acc.any (fun nd => nd.1 == name) then
    acc.map (fun nd => if nd.1 == name then (nd.1, mergeNodeData nd.2 d) else nd)
  else acc ++ [(name, d)]

/-- `graph.add_node(name, type=.., description=.., **attributes)` without the
keyword-collision check. -/
def addNode (g : KGraph) (name : String) (d : NodeData) : KGraph :=
  { g with nodes := insNode g.nodes name d }

/-- The message of the Python `TypeError` raised when `**attributes`
collides with the explicit `type=`/`description=` keyword arguments of
`add_node`. -/
def typeErrorMsg : String :=
  "TypeError: add_node got multiple values for keyword argument"

/-- An attribute dictionary collides with the explicit keyword arguments of
the `add_node` call in `build_from_entities_and_triples` exactly when it
contains a key named `type` or `description`. -/
def entityBadAttr (attrs : List (String × String)) : Bool :=
  attrs.any fun kv => kv.1 == "type" || kv.1 == "description"

/-- First phase of `build_from_entities_and_triples`: add one node per
entity.  Splatting an attribute map holding a `type` or `description` key
onto `add_node` raises `TypeError` in Python; this is embedded as an
`Except.error`. -/
def addEntities (g : KGraph) : List (String × Entity) → Except String KGraph
  | [] => .ok g
  | (name, e) :: rest =>
    if entityBadAttr e.attributes then
      .error typeErrorMsg
    else
      addEntities (addNode g name ⟨e.type, e.description, e.attributes⟩) rest

/-- Second phase of `build_from_entities_and_triples`: for each triple,
skip falsy fields, apply `_should_filter_relation`, and insert an edge only
when both endpoints are keys of the entity map. -/
def addTriples (entities : List (String × Entity)) (g : KGraph) :
    List Triple → KGraph
  | [] => g
  | t :: rest =>
    let g' :=
      if truthy t = false then g
      else if should_filter_relation t.subject t.predicate t.object then g
      else if entities.any (fun ne => ne.1 == t.subject)
              && entities.any (fun ne => ne.1 == t.object) then
        { g with edges := g.edges ++ [⟨t.subject, t.object, t.predicate⟩] }
      else g
    addTriples entities g' rest

/-- `KnowledgeGraph.build_from_entities_and_triples`, starting from the
empty `MultiDiGraph` created by `__init__`. -/
def build_from_entities_and_triples (entities : List (String × Entity))
    (triples : List Triple) : Except String KGraph :=
  match addEntities ⟨[], []⟩ entities with
  | .error msg => .error msg
  | .ok g => .ok (addTriples entities g triples)

/-- Modelled from the spec: `apply_entity_mapping` delegates the merge to
`nx.relabel_nodes(self.graph, mapping, copy=False)`, which is external
networkx library code not present in this repository.  Spec section 4.3
defines its contract: for every `(alias, canonical)` pair where
`alias != canonical` and `alias` is a current node, rename `alias` to
`canonical`; all incident edges are transferred preserving multiplicity and
merge-created self-loops are not filtered.  `resolve` is the induced
name-resolution function (`mapping.get(x, x)`). -/
def resolve (mapping : List (String × String)) (x : String) : String :=
  match mapping.lookup x with
  | some y => y
  | none => x

/-- Relabel a node dictionary through a name-resolution function: nodes
whose new names collide are merged (the later record's fields update the
earlier one, as `add_node(new, **G.nodes[old])` does). -/
def relabelNodesF (f : String → String) (nodes : List (String × NodeData)) :
    List (String × NodeData) :=
  nodes.foldl (fun acc nd => insNode acc (f nd.1) nd.2) []

/-- Modelled from the spec: `KnowledgeGraph.apply_entity_mapping` — rename
every node through the alias map and transfer every edge to the renamed
endpoints, preserving multiplicity (spec section 4.3; the `nx.relabel_nodes`
call is external library code).  The operation is total: pairs whose alias
is not a current node simply have no effect, and no error is raised. -/
def apply_entity_mapping (g : KGraph) (mapping : List (String × String)) :
    KGraph :=
  { nodes := relabelNodesF (resolve mapping) g.nodes
    edges := g.edges.map fun e =>
      ⟨resolve mapping e.src, resolve mapping e.tgt, e.predicate⟩ }

/-- The issues recorded by `assess_quality` (each constructor stands for the
corresponding Chinese message string built in the source). -/
inductive Issue
  /-- "图谱为空，没有任何节点" -/
  | emptyGraph
  /-- "发现 n 个孤立节点（无连接）" -/
  | isolatedNodes (count : Nat)
deriving DecidableEq, Repr

/-- The warnings recorded by `assess_quality` (each constructor stands for
the corresponding Chinese message string built in the source). -/
inductive QWarning
  /-- "发现 n 个自环关系" -/
  | selfLoops (count : Nat)
  /-- "图谱不完全连通，有 n 个连通分量" -/
  | notConnected (components : Nat)
  /-- "图谱密度较低，可能存在连接不足的问题" -/
  | lowDensity
deriving DecidableEq, Repr

/-- The assessment dictionary produced by `assess_quality`.  Optional
fields model `stats` keys that are only set conditionally; distribution
fields are always set once the graph is non-empty. -/
structure Assessment where
  total_nodes : Nat
  total_edges : Nat
  issues : List Issue
  warnings : List QWarning
  isolated_nodes : Option Nat := none
  self_loops : Option Nat := none
  entity_type_distribution : List (String × Nat) := []
  relation_type_distribution : List (String × Nat) := []
  connected_components : Option Nat := none
  graph_density : Option ℚ := none
deriving DecidableEq, Repr

/-- Ordered histogram (Python dict-of-counts built with `get(k, 0) + 1`). -/
def bump (acc : List (String × Nat)) (k : String) : List (String × Nat) :=
  if acc.any (fun kv => kv.1 == k) then
    acc.map (fun kv => if kv.1 == k then (kv.1, kv.2 + 1) else kv)
  else acc ++ [(k, 1)]

/-- Histogram of a list of keys, in first-seen order. -/
def histogram (ks : List String) : List (String × Nat) := ks.foldl bump []

/-- `nx.isolates`: nodes with no incident edge (in- or out-, self-loops
count as incident). -/
def isolatedList (g : KGraph) : List String :=
  (nodeNames g).filter fun n => !(g.edges.any fun e => e.src == n || e.tgt == n)

/-- Two names are adjacent in the undirected view of the graph. -/
def adjacent (g : KGraph) (x y : String) : Prop :=
  ∃ e ∈ g.edges, (e.src = x ∧ e.tgt = y) ∨ (e.src = y ∧ e.tgt = x)

instance (g : KGraph) (x y : String) : Decidable (adjacent g x y) := by
  unfold adjacent; infer_instance

/-- One step of undirected closure: the nodes of `g` that are in `s` or
adjacent to a member of `s`. -/
def expandStep (g : KGraph) (s : List String) : List String :=
  (nodeNames g).filter fun n => s.contains n || s.any fun m => decide (adjacent g m n)

/-- Iterate the closure step. -/
def iterExpand (g : KGraph) : Nat → List String → List String
  | 0, s => s
  | k + 1, s => iterExpand g k (expandStep g s)

/-- The weakly-connected component of `x`: closing for `number_of_nodes`
steps reaches every node of the component. -/
def reachSet (g : KGraph) (x : String) : List String :=
  iterExpand g (number_of_nodes g) ((nodeNames g).filter fun n => n == x)

/-- Undirected connectivity between two names of the graph. -/
def connectedB (g : KGraph) (x y : String) : Bool := (reachSet g x).contains y

/-- Count weakly-connected components by counting the nodes that are not
connected to any node listed before them. -/
def componentCountAux (g : KGraph) : List String → List String → Nat
  | _, [] => 0
  | earlier, n :: rest =>
    (if earlier.any (fun m => connectedB g m n) then 0 else 1)
      + componentCountAux g (earlier ++ [n]) rest

/-- `len(list(nx.weakly_connected_components(graph)))`. -/
def componentCount (g : KGraph) : Nat := componentCountAux g [] (nodeNames g)

/-- `nx.density` for a directed (multi)graph: `m / (n * (n - 1))`, as an
exact rational (the Python float arithmetic is idealised over `ℚ`). -/
def density (g : KGraph) : ℚ :=
  (g.edges.length : ℚ)
    / ((number_of_nodes g : ℚ) * ((number_of_nodes g : ℚ) - 1))

/-- Round-half-to-even on an exact rational (the semantics of Python's
`round` builtin, idealised from binary floats to `ℚ`). -/
def roundHalfEven (q : ℚ) : ℤ :=
  let f : ℤ := ⌊q⌋
  let r : ℚ := q - (f : ℚ)
  if r < 1 / 2 then f
  else if 1 / 2 < r then f + 1
  else if f % 2 = 0 then f else f + 1

/-- `round(x, 4)` idealised over `ℚ`. -/
def roundTo4 (q : ℚ) : ℚ := (roundHalfEven (q * 10000) : ℚ) / 10000

/-- `KnowledgeGraph.assess_quality`: empty graph short-circuits with the
single "empty graph" issue; otherwise isolated nodes, self-loops, type and
predicate distributions, weak connectivity, and (for more than one node)
the rounded density plus the low-density warning (`density < 0.1`, checked
on the unrounded value) are computed in source order. -/
def assess_quality (g : KGraph) : Assessment :=
  if number_of_nodes g = 0 then
    { total_nodes := 0, total_edges := g.edges.length,
      issues := [.emptyGraph], warnings := [] }
  else
    { total_nodes := number_of_nodes g
      total_edges := g.edges.length
      issues := if 0 < (isolatedList g).length then
          [.isolatedNodes (isolatedList g).length] else []
      warnings :=
        (if 0 < (g.edges.filter fun e => e.src == e.tgt).length then
            [QWarning.selfLoops (g.edges.filter fun e => e.src == e.tgt).length]
          else [])
          ++ (if componentCount g ≠ 1 then
                [QWarning.notConnected (componentCount g)] else [])
          ++ (if 1 < number_of_nodes g then
                (if density g < 1 / 10 then [QWarning.lowDensity] else [])
              else [])
      isolated_nodes := if 0 < (isolatedList g).length then
          some (isolatedList g).length else none
      self_loops := if 0 < (g.edges.filter fun e => e.src == e.tgt).length then
          some (g.edges.filter fun e => e.src == e.tgt).length else none
      entity_type_distribution := histogram (g.nodes.map fun nd => nd.2.type)
      relation_type_distribution := histogram (g.edges.map Edge.predicate)
      connected_components := if componentCount g ≠ 1 then
          some (componentCount g) else none
      graph_density := if 1 < number_of_nodes g then
          some (roundTo4 (density g)) else none }

/-- A raw item of the LLM's `refined_triples` JSON array: either not a JSON
object at all, or an object with the given string fields. -/
inductive RawItem
  | notDict
  | dict (fields : List (String × String))
deriving DecidableEq, Repr

/-- `k in t` for a raw JSON item (`False` when the item is not a dict). -/
def hasKey (it : RawItem) (k : String) : Bool :=
  match it with
  | .notDict => false
  | .dict kvs => kvs.any fun kv => kv.1 == k

/-- `isinstance(t, dict) and all(k in t for k in ['subject', 'predicate',
'object'])`. -/
def isValidTriple (it : RawItem) : Bool :=
  match it with
  | .notDict => false
  | .dict _ => hasKey it "subject" && hasKey it "predicate" && hasKey it "object"

/-- The deterministic tail of `InformationExtractor.refine_and_relabel`
(the LLM call itself is external): keep the well-formed refined triples in
input order and record the number of dropped items as the diagnostic
`filtered_count = len(refined_triples) - len(valid_triples)`. -/
def refine_and_relabel (raw : List RawItem) : List RawItem × Nat :=
  let valid := raw.filter isValidTriple
  (valid, raw.length - valid.length)

/-- Field access `t.get(k)` on a raw item, with `""` (falsy) for a missing
key or a non-dict item. -/
def getField (it : RawItem) (k : String) : String :=
  match it with
  | .notDict => ""
  | .dict kvs =>
    match kvs.lookup k with
    | some v => v
    | none => ""

/-- View a raw refined item as a `Triple` (the fields `build` reads). -/
def toTriple (it : RawItem) : Triple :=
  ⟨getField it "subject", getField it "predicate", getField it "object"⟩

/-- The outcome of one `run_demo_pipeline` run: a fatal halt at one of the
three checked stages, a Python-level crash escaping from `build` (the
`TypeError` of the `add_node` keyword collision), or a completed run with
the final graph and a flag recording whether `apply_entity_mapping` was
invoked. -/
inductive PipelineOutcome
  | haltedAtExtraction
  | haltedAtSchemaOptimization
  | haltedAtRefinement
  | crashed (msg : String)
  | completed (g : KGraph) (aliasApplied : Bool)
deriving DecidableEq, Repr

/-- The three graceful fatal halts (`return` after a printed reason). -/
def PipelineOutcome.isHalt : PipelineOutcome → Bool
  | .haltedAtExtraction => true
  | .haltedAtSchemaOptimization => true
  | .haltedAtRefinement => true
  | _ => false

/-- The results of the five external LLM stages consumed by
`run_demo_pipeline`: candidate entities and triples (step 1), the optimized
schema object (step 2), the raw `refined_triples` array (step 3), the role
census (step 4, consumed only by the external linking prompt), and the
alias map (step 5). -/
structure StageOutputs where
  candidate_entities : List (String × Entity)
  candidate_triples : List Triple
  optimized_schema : List (String × List String)
  raw_refined_triples : List RawItem
  role_analysis : List (String × Nat)
  alias_map : List (String × String)
deriving Repr

/-- The deterministic control flow of `run_demo_pipeline`: halt if the
extraction produced no triples, halt if the optimized schema is empty, halt
if refinement kept no valid triple; then build the graph from the candidate
entities and the refined triples, and apply the alias map only when it is
non-empty.  Role-census results never affect control flow. -/
def run_demo_pipeline (so : StageOutputs) : PipelineOutcome :=
  if so.candidate_triples.isEmpty then .haltedAtExtraction
  else if so.optimized_schema.isEmpty then .haltedAtSchemaOptimization
  else
    let refined := (refine_and_relabel so.raw_refined_triples).1
    if refined.isEmpty then .haltedAtRefinement
    else
      match build_from_entities_and_triples so.candidate_entities
          (refined.map toTriple) with
      | .error msg => .crashed msg
      | .ok g =>
        if so.alias_map.isEmpty then .completed g false
        else .completed (apply_entity_mapping g so.alias_map) true

/-! ## Concrete fixtures used by the claim theorems -/

/-- Concrete two-node graph for the idempotence counterexample. -/
def gNotIdem : KGraph := ⟨[("a", ⟨"T", "", []⟩), ("b", ⟨"T", "", []⟩)], []⟩

/-- A syntactically legal alias map whose values are not fixed points. -/
def mNotIdem : List (String × String) := [("a", "b"), ("b", "c")]

/-- Two distinct nodes holding one edge to each other. -/
def gAnti : KGraph :=
  ⟨[("a", ⟨"T", "", []⟩), ("b", ⟨"T", "", []⟩)],
    [⟨"a", "b", "p"⟩, ⟨"b", "a", "q"⟩]⟩

/-- The filtering condition of the claim: self-loop triples, copula
predicates (after lower-casing), and trimmed predicates of length at most
one. -/
def filteredTriple (t : Triple) : Prop :=
  t.subject = t.object
    ∨ lowerString t.predicate ∈ filterPredicates
    ∨ (pyStrip t.predicate).length ≤ 1

instance (t : Triple) : Decidable (filteredTriple t) := by
  unfold filteredTriple; infer_instance

/-- A triple survives all three run-time guards of the edge-insertion loop
of `build_from_entities_and_triples`: truthy fields, the relation filter,
and both endpoints being keys of the entity map. -/
def passesBuild (entities : List (String × Entity)) (t : Triple) : Bool :=
  truthy t
    && !(should_filter_relation t.subject t.predicate t.object)
    && (entities.any fun ne => ne.1 == t.subject)
    && (entities.any fun ne => ne.1 == t.object)

/-- The entity map of the spec's two-node scenario. -/
def scenario_entities : List (String × Entity) :=
  [("张三", ⟨"Person", "", []⟩), ("技术团队", ⟨"Organization", "", []⟩)]

/-- The triple list of the spec's two-node scenario. -/
def scenario_triples : List Triple := [⟨"张三", "负责", "技术团队"⟩]

/-- An entity map whose single entity carries an attribute named `type`. -/
def badEntityMap : List (String × Entity) :=
  [("张三", ⟨"Person", "", [("type", "X")]⟩)]

/-- The graph built from the spec's two-node scenario. -/
def scenarioGraph : KGraph :=
  ⟨[("张三", ⟨"Person", "", []⟩), ("技术团队", ⟨"Organization", "", []⟩)],
    [⟨"张三", "技术团队", "负责"⟩]⟩

/-- The stage outputs of a concrete successful run with an empty alias
map. -/
def soWitness : StageOutputs :=
  { candidate_entities := scenario_entities
    candidate_triples := scenario_triples
    optimized_schema := [("entities", ["Person", "Organization"]),
      ("relations", ["负责"]), ("attributes", [])]
    raw_refined_triples :=
      [.dict [("subject", "张三"), ("predicate", "负责"), ("object", "技术团队")]]
    role_analysis := []
    alias_map := [] }


/-! ## Helper lemmas about the node-dictionary operations -/

lemma lookup_mem {x v : String} :
    ∀ {l : List (String × String)}, l.lookup x = some v → (x, v) ∈ l := by
  intro l
  induction l with
  | nil => intro h; simp [List.lookup] at h
  | cons p rest ih =>
    intro h
    rw [List.lookup] at h
    by_cases hx : x == p.1
    · simp [hx] at h
      have hxk : x = p.1 := beq_iff_eq.mp hx
      have hpv : (x, v) = p := by cases p; simp_all
      rw [hpv]
      exact List.mem_cons_self _ _
    · simp [hx] at h
      exact List.mem_cons_of_mem _ (ih h)

lemma resolve_fixed (m : List (String × String))
    (h : ∀ p ∈ m, resolve m p.2 = p.2) (x : String) :
    resolve m (resolve m x) = resolve m x := by
  cases hx : m.lookup x with
  | none =>
    have hr : resolve m x = x := by simp [resolve, hx]
    rw [hr]
    exact hr
  | some v =>
    have hr : resolve m x = v := by simp [resolve, hx]
    rw [hr]
    exact h (x, v) (lookup_mem hx)

lemma fst_insNode (acc : List (String × NodeData)) (n : String) (d : NodeData) :
    (insNode acc n d).map Prod.fst =
      if acc.any (fun nd => nd.1 == n) then acc.map Prod.fst
      else acc.map Prod.fst ++ [n] := by
  unfold insNode
  split
  · rw [List.map_map]
    apply List.map_congr_left
    intro a _
    by_cases h : a.1 = n <;> simp [h]
  · simp

lemma mem_fst_insNode {x : String} (acc : List (String × NodeData))
    (n : String) (d : NodeData) :
    x ∈ (insNode acc n d).map Prod.fst ↔ x ∈ acc.map Prod.fst ∨ x = n := by
  rw [fst_insNode]
  split
  · rename_i h
    rw [List.any_eq_true] at h
    obtain ⟨nd, hnd, hbeq⟩ := h
    have hn : nd.1 = n := beq_iff_eq.mp hbeq
    constructor
    · exact Or.inl
    · rintro (hx | rfl)
      · exact hx
      · exact hn ▸ List.mem_map_of_mem Prod.fst hnd
  · simp

lemma nodup_fst_insNode {acc : List (String × NodeData)} {n : String}
    {d : NodeData} (h : (acc.map Prod.fst).Nodup) :
    ((insNode acc n d).map Prod.fst).Nodup := by
  rw [fst_insNode]
  split
  · exact h
  · rename_i hany
    have hn : n ∉ acc.map Prod.fst := by
      intro hmem
      obtain ⟨nd, hnd, rfl⟩ := List.mem_map.mp hmem
      exact hany (List.any_eq_true.mpr ⟨nd, hnd, by simp⟩)
    simp [List.nodup_append, h, hn]

lemma mem_fst_foldIns (f : String → String) {x : String} :
    ∀ (l : List (String × NodeData)) (acc : List (String × NodeData)),
    x ∈ (l.foldl (fun acc nd => insNode acc (f nd.1) nd.2) acc).map Prod.fst ↔
      x ∈ acc.map Prod.fst ∨ ∃ n ∈ l.map Prod.fst, f n = x := by
  intro l
  induction l with
  | nil => intro acc; simp
  | cons nd rest ih =>
    intro acc
    rw [List.foldl_cons, ih, mem_fst_insNode]
    simp only [List.map_cons, List.mem_cons]
    constructor
    · rintro ((hx | rfl) | ⟨n, hn, hfn⟩)
      · exact Or.inl hx
      · exact Or.inr ⟨nd.1, Or.inl rfl, rfl⟩
      · exact Or.inr ⟨n, Or.inr hn, hfn⟩
    · rintro (hx | ⟨n, (rfl | hn), hfn⟩)
      · exact Or.inl (Or.inl hx)
      · exact Or.inl (Or.inr hfn.symm)
      · exact Or.inr ⟨n, hn, hfn⟩

lemma nodup_fst_foldIns (f : String → String) :
    ∀ (l : List (String × NodeData)) (acc : List (String × NodeData)),
    (acc.map Prod.fst).Nodup →
    ((l.foldl (fun acc nd => insNode acc (f nd.1) nd.2) acc).map Prod.fst).Nodup := by
  intro l
  induction l with
  | nil => intro acc h; simpa using h
  | cons nd rest ih =>
    intro acc h
    rw [List.foldl_cons]
    exact ih _ (nodup_fst_insNode h)

lemma fixed_foldIns (f : String → String) :
    ∀ (l : List (String × NodeData)) (acc : List (String × NodeData)),
    (∀ p ∈ l, f p.1 = p.1) →
    (acc.map Prod.fst ++ l.map Prod.fst).Nodup →
    l.foldl (fun acc nd => insNode acc (f nd.1) nd.2) acc = acc ++ l := by
  intro l
  induction l with
  | nil => intro acc _ _; simp
  | cons nd rest ih =>
    intro acc hfix hnd
    rw [List.foldl_cons]
    have hf : f nd.1 = nd.1 := hfix nd (List.mem_cons_self nd rest)
    have hnotin : nd.1 ∉ acc.map Prod.fst := by
      intro hmem
      rw [List.nodup_append] at hnd
      exact hnd.2.2 hmem (by simp)
    have hany : acc.any (fun x => x.1 == nd.1) = false := by
      rw [List.any_eq_false]
      intro a ha heq
      have ha1 : a.1 = nd.1 := beq_iff_eq.mp heq
      exact hnotin (ha1 ▸ List.mem_map_of_mem Prod.fst ha)
    have hins : insNode acc (f nd.1) nd.2 = acc ++ [nd] := by
      rw [hf]
      unfold insNode
      rw [hany]
      simp
    rw [hins, ih (acc ++ [nd]) (fun p hp => hfix p (List.mem_cons_of_mem nd hp)) ?_,
      List.append_assoc]
    · simp
    · simpa [List.append_assoc] using hnd

lemma congr_foldIns (f f' : String → String) :
    ∀ (l : List (String × NodeData)) (acc : List (String × NodeData)),
    (∀ n ∈ l.map Prod.fst, f n = f' n) →
    l.foldl (fun acc nd => insNode acc (f nd.1) nd.2) acc =
      l.foldl (fun acc nd => insNode acc (f' nd.1) nd.2) acc := by
  intro l
  induction l with
  | nil => intro acc _; rfl
  | cons nd rest ih =>
    intro acc h
    rw [List.foldl_cons, List.foldl_cons,
      h nd.1 (by simp),
      ih _ (fun n hn => h n (by simp [hn]))]

/-! ## C1: the merge preserves the total edge count -/

/-- C1: for every graph and every alias map, `apply_entity_mapping` leaves
the total edge count unchanged, and the multiset of edge predicates is
preserved as well — only endpoints are relabeled. -/
theorem apply_entity_mapping_preserves_edge_count (g : KGraph)
    (mapping : List (String × String)) :
    (apply_entity_mapping g mapping).edges.length = g.edges.length ∧
    (apply_entity_mapping g mapping).edges.map Edge.predicate =
      g.edges.map Edge.predicate := by
  constructor
  · simp [apply_entity_mapping]
  · simp only [apply_entity_mapping, List.map_map]
    apply List.map_congr_left
    intro e _
    rfl

/-! ## C2: idempotence of the merge -/

/-- C2 counterexample: with the alias map `{a: b, b: c}` (whose values are
not fixed points — a shape the spec admits because totality/idempotence is
never validated) on the graph with nodes `a`, `b`, applying the map once
yields nodes `{b, c}` but applying it twice yields `{c}`: the claim that
applying the same map twice always yields an identical graph is false. -/
theorem apply_entity_mapping_not_idempotent :
    apply_entity_mapping (apply_entity_mapping gNotIdem mNotIdem) mNotIdem ≠
      apply_entity_mapping gNotIdem mNotIdem := by decide

/-- C2 (amended): for alias maps whose values are fixed points of the map
(`aliasMap[aliasMap[x]] == aliasMap[x]`, the shape the spec requires of an
AliasMap), applying the map twice yields a graph identical to applying it
once. -/
theorem apply_entity_mapping_idempotent (g : KGraph)
    (mapping : List (String × String))
    (h : ∀ p ∈ mapping, resolve mapping p.2 = p.2) :
    apply_entity_mapping (apply_entity_mapping g mapping) mapping =
      apply_entity_mapping g mapping := by
  have hres := resolve_fixed mapping h
  unfold apply_entity_mapping relabelNodesF
  simp only [KGraph.mk.injEq]
  constructor
  · set L := g.nodes.foldl
      (fun acc nd => insNode acc (resolve mapping nd.1) nd.2) [] with hL
    have h1 : ∀ p ∈ L, resolve mapping p.1 = p.1 := by
      intro p hp
      have hmem : p.1 ∈ L.map Prod.fst := List.mem_map_of_mem Prod.fst hp
      rw [hL, mem_fst_foldIns] at hmem
      rcases hmem with hmem | ⟨n, _, hfn⟩
      · simp at hmem
      · rw [← hfn]; exact hres n
    have h2 : (L.map Prod.fst).Nodup := by
      rw [hL]
      exact nodup_fst_foldIns _ _ _ (by simp)
    have := fixed_foldIns (resolve mapping) L [] h1 (by simpa using h2)
    simpa using this
  · rw [List.map_map]
    apply List.map_congr_left
    intro e _
    simp [Function.comp, hres]

/-- C2 witness: a concrete fixed-point alias map on a concrete graph. -/
theorem apply_entity_mapping_idempotent_witness :
    apply_entity_mapping
        (apply_entity_mapping
          ⟨[("张三", ⟨"Person", "", []⟩), ("张经理", ⟨"Person", "", []⟩)],
            [⟨"张经理", "张三", "汇报"⟩]⟩ [("张经理", "张三")])
        [("张经理", "张三")] =
      apply_entity_mapping
        ⟨[("张三", ⟨"Person", "", []⟩), ("张经理", ⟨"Person", "", []⟩)],
          [⟨"张经理", "张三", "汇报"⟩]⟩ [("张经理", "张三")] :=
  apply_entity_mapping_idempotent _ _ (by decide)

/-! ## C3: self-loops created by merging mutually connected nodes -/

/-- C3 counterexample: merging `b` into `a` when the graph holds the edges
`a → b` and `b → a` transfers both edges, so the self-loop count reported
by `assess_quality` is 2, not 1 as claimed. -/
theorem merge_self_loop_count_not_one :
    (assess_quality (apply_entity_mapping gAnti [("b", "a")])).self_loops ≠
      some 1 := by decide

/-- C3 (amended): merging two distinct mutually connected nodes produces a
graph whose `assess_quality` self-loop count is exactly 2 — both
transferred edges become self-loops and neither is removed (filtering
happens only during build, never during merge). -/
theorem merge_antiparallel_edges_two_self_loops (a b p q : String)
    (da db : NodeData) (h : a ≠ b) :
    (assess_quality (apply_entity_mapping
        ⟨[(a, da), (b, db)], [⟨a, b, p⟩, ⟨b, a, q⟩]⟩ [(b, a)])).self_loops =
      some 2 := by
  have hab : (a == b) = false := beq_eq_false_iff_ne.mpr h
  have h1 : resolve [(b, a)] a = a := by simp [resolve, List.lookup, hab]
  have h2 : resolve [(b, a)] b = a := by simp [resolve, List.lookup]
  have happly : apply_entity_mapping
      ⟨[(a, da), (b, db)], [⟨a, b, p⟩, ⟨b, a, q⟩]⟩ [(b, a)] =
      ⟨[(a, mergeNodeData da db)], [⟨a, a, p⟩, ⟨a, a, q⟩]⟩ := by
    simp [apply_entity_mapping, relabelNodesF, insNode, h1, h2]
  rw [happly]
  simp [assess_quality, number_of_nodes]

/-- C3 witness: the amended statement at a concrete graph. -/
theorem merge_antiparallel_edges_two_self_loops_witness :
    (assess_quality (apply_entity_mapping
        ⟨[("x", ⟨"T", "", []⟩), ("y", ⟨"U", "", []⟩)],
          [⟨"x", "y", "p"⟩, ⟨"y", "x", "q"⟩]⟩ [("y", "x")])).self_loops =
      some 2 :=
  merge_antiparallel_edges_two_self_loops "x" "y" "p" "q" _ _ (by decide)

/-! ## C4: filtered triples never produce an edge -/

lemma should_filter_of_filteredTriple (t : Triple) (h : filteredTriple t) :
    should_filter_relation t.subject t.predicate t.object = true := by
  unfold should_filter_relation
  rcases h with h | h | h
  · simp [h]
  · simp [h]
  · simp [h]

lemma addTriples_append (entities : List (String × Entity)) :
    ∀ (l₁ l₂ : List Triple) (g : KGraph),
    addTriples entities g (l₁ ++ l₂) =
      addTriples entities (addTriples entities g l₁) l₂ := by
  intro l₁
  induction l₁ with
  | nil => intro l₂ g; rfl
  | cons t rest ih =>
    intro l₂ g
    simp only [List.cons_append, addTriples]
    exact ih l₂ _

lemma addTriples_skip (entities : List (String × Entity)) (g : KGraph)
    (t : Triple) (rest : List Triple)
    (hskip : truthy t = false ∨
      should_filter_relation t.subject t.predicate t.object = true) :
    addTriples entities g (t :: rest) = addTriples entities g rest := by
  simp only [addTriples]
  rcases hskip with h | h
  · simp [h]
  · by_cases ht : truthy t = false
    · simp [ht]
    · simp [ht, h]

/-- C4: a triple whose subject equals its object, or whose lower-cased
predicate is a copula/membership word, or whose trimmed predicate has
length at most one, never produces an edge: removing it from the triple
list (at any position) leaves the built graph unchanged. -/
theorem filtered_triple_never_produces_edge (entities : List (String × Entity))
    (t : Triple) (ts₁ ts₂ : List Triple) (h : filteredTriple t) :
    build_from_entities_and_triples entities (ts₁ ++ t :: ts₂) =
      build_from_entities_and_triples entities (ts₁ ++ ts₂) := by
  unfold build_from_entities_and_triples
  cases hae : addEntities ⟨[], []⟩ entities with
  | error msg => rfl
  | ok g =>
    have hskip : truthy t = false ∨
        should_filter_relation t.subject t.predicate t.object = true :=
      Or.inr (should_filter_of_filteredTriple t h)
    dsimp only
    rw [addTriples_append, addTriples_append,
      addTriples_skip entities _ t ts₂ hskip]

/-- C4 witness: a concrete copula triple between two known entities is
dropped. -/
theorem filtered_triple_never_produces_edge_witness :
    filteredTriple ⟨"张三", "是", "技术团队"⟩ ∧
    build_from_entities_and_triples
        [("张三", ⟨"Person", "", []⟩), ("技术团队", ⟨"Organization", "", []⟩)]
        ([] ++ ⟨"张三", "是", "技术团队"⟩ :: [⟨"张三", "负责", "技术团队"⟩]) =
      build_from_entities_and_triples
        [("张三", ⟨"Person", "", []⟩), ("技术团队", ⟨"Organization", "", []⟩)]
        ([] ++ [⟨"张三", "负责", "技术团队"⟩]) :=
  ⟨by decide, filtered_triple_never_produces_edge _ _ _ _ (by decide)⟩

/-! ## C5 and C10: what build produces, and when it crashes -/

lemma any_fst_beq_eq_false {α : Type} {n : String} {acc : List (String × α)}
    (h : n ∉ acc.map Prod.fst) : (acc.any fun x => x.1 == n) = false := by
  rw [List.any_eq_false]
  intro a ha heq
  exact h ((beq_iff_eq.mp heq) ▸ List.mem_map_of_mem Prod.fst ha)

lemma addEntities_ok :
    ∀ (l : List (String × Entity)) (g : KGraph),
    (∀ p ∈ l, entityBadAttr p.2.attributes = false) →
    addEntities g l = .ok (l.foldl
      (fun g' p => addNode g' p.1 ⟨p.2.type, p.2.description, p.2.attributes⟩) g) := by
  intro l
  induction l with
  | nil => intro g _; rfl
  | cons q rest ih =>
    intro g h
    have hq : entityBadAttr q.2.attributes = false := h q (List.mem_cons_self q rest)
    simp only [addEntities, hq, List.foldl_cons]
    exact ih _ (fun p hp => h p (List.mem_cons_of_mem q hp))

lemma addEntities_error :
    ∀ (l : List (String × Entity)) (p : String × Entity), p ∈ l →
    entityBadAttr p.2.attributes = true →
    ∀ g, addEntities g l = .error typeErrorMsg := by
  intro l
  induction l with
  | nil => intro p hp; cases hp
  | cons q rest ih =>
    intro p hp hbad g
    rcases List.mem_cons.mp hp with rfl | hp'
    · simp only [addEntities, hbad, if_true]
    · by_cases hq : entityBadAttr q.2.attributes = true
      · simp only [addEntities, hq, if_true]
      · simp only [addEntities, hq, if_false]
        exact ih p hp' hbad _

lemma nodes_foldl_addNode :
    ∀ (l : List (String × Entity)) (g : KGraph),
    (g.nodes.map Prod.fst ++ l.map Prod.fst).Nodup →
    l.foldl (fun g' p => addNode g' p.1 ⟨p.2.type, p.2.description, p.2.attributes⟩) g =
      { g with nodes := g.nodes ++
          l.map (fun p => (p.1, (⟨p.2.type, p.2.description, p.2.attributes⟩ : NodeData))) } := by
  intro l
  induction l with
  | nil => intro g _; simp
  | cons q rest ih =>
    intro g hnd
    have hnotin : q.1 ∉ g.nodes.map Prod.fst := by
      intro hmem
      rw [List.nodup_append] at hnd
      exact hnd.2.2 hmem (by simp)
    have hins : addNode g q.1 ⟨q.2.type, q.2.description, q.2.attributes⟩ =
        { g with nodes := g.nodes ++
            [(q.1, (⟨q.2.type, q.2.description, q.2.attributes⟩ : NodeData))] } := by
      unfold addNode insNode
      rw [any_fst_beq_eq_false hnotin]
      simp
    rw [List.foldl_cons, hins,
      ih _ (by simpa [List.append_assoc] using hnd)]
    simp

lemma addTriples_spec (entities : List (String × Entity)) :
    ∀ (ts : List Triple) (g : KGraph),
    addTriples entities g ts =
      { g with edges := g.edges ++ ((ts.filter (passesBuild entities)).map
          (fun t => (⟨t.subject, t.object, t.predicate⟩ : Edge))) } := by
  intro ts
  induction ts with
  | nil => intro g; simp [addTriples]
  | cons t rest ih =>
    intro g
    have hstep : (if truthy t = false then g
        else if should_filter_relation t.subject t.predicate t.object then g
        else if (entities.any fun ne => ne.1 == t.subject)
            && (entities.any fun ne => ne.1 == t.object) then
          { g with edges := g.edges ++ [⟨t.subject, t.object, t.predicate⟩] }
        else g) =
        (if passesBuild entities t then
          { g with edges := g.edges ++ [⟨t.subject, t.object, t.predicate⟩] }
        else g) := by
      cases ht : truthy t <;>
        cases hs : should_filter_relation t.subject t.predicate t.object <;>
        cases hA : (entities.any fun ne => ne.1 == t.subject) <;>
        cases hB : (entities.any fun ne => ne.1 == t.object) <;>
        simp [passesBuild, ht, hs, hA, hB]
    simp only [addTriples]
    rw [hstep]
    by_cases hp : passesBuild entities t = true
    · rw [if_pos hp, ih]
      simp [List.filter_cons, hp, List.append_assoc]
    · have hpf : passesBuild entities t = false := by
        revert hp; cases passesBuild entities t <;> simp
      rw [if_neg hp, ih]
      simp [List.filter_cons, hpf]

/-- C5 counterexample: on an entity map holding an attribute key `type`
(legal data per the spec's Entity model), `build` does not yield a graph at
all — it raises `TypeError` — so the claimed node count `|entities|` is not
produced for every entity map. -/
theorem build_not_total_on_attribute_maps :
    build_from_entities_and_triples badEntityMap [] = .error typeErrorMsg := by
  rfl

/-- C5 (amended): for every entity map (distinct names, as in a Python
dict) whose attribute maps avoid the reserved keyword keys
`type`/`description`, build succeeds, yields exactly one node per entity,
and inserts exactly one edge — carrying the triple's predicate as edge
data — per triple with truthy fields that passes the filter rule and whose
subject and object are both entity-map keys; triples referencing unknown
names contribute nothing and no error is raised. -/
theorem build_node_and_edge_counts (entities : List (String × Entity))
    (triples : List Triple)
    (hnodup : (entities.map Prod.fst).Nodup)
    (hattrs : ∀ p ∈ entities, entityBadAttr p.2.attributes = false) :
    ∃ g, build_from_entities_and_triples entities triples = .ok g ∧
      number_of_nodes g = entities.length ∧
      g.edges = (triples.filter (passesBuild entities)).map
        fun t => (⟨t.subject, t.object, t.predicate⟩ : Edge) := by
  unfold build_from_entities_and_triples
  rw [addEntities_ok entities ⟨[], []⟩ hattrs,
    nodes_foldl_addNode entities ⟨[], []⟩ (by simpa using hnodup)]
  refine ⟨_, rfl, ?_, ?_⟩
  · rw [addTriples_spec]
    simp [number_of_nodes]
  · rw [addTriples_spec]
    simp

/-- C5 witness: the amended statement at the spec's concrete scenario. -/
theorem build_node_and_edge_counts_witness :
    ∃ g, build_from_entities_and_triples scenario_entities scenario_triples =
        .ok g ∧
      number_of_nodes g = scenario_entities.length ∧
      g.edges = (scenario_triples.filter (passesBuild scenario_entities)).map
        fun t => (⟨t.subject, t.object, t.predicate⟩ : Edge) :=
  build_node_and_edge_counts scenario_entities scenario_triples
    (by decide) (by decide)

/-- C10: whenever any entity's attribute map contains a key named `type` or
`description`, splatting it onto `add_node` collides with the explicit
keyword arguments, and `build_from_entities_and_triples` raises `TypeError`
instead of completing — the flat attribute copy is not total over arbitrary
attribute maps. -/
theorem build_type_attribute_collision (entities : List (String × Entity))
    (triples : List Triple) (p : String × Entity) (hmem : p ∈ entities)
    (hbad : entityBadAttr p.2.attributes = true) :
    build_from_entities_and_triples entities triples = .error typeErrorMsg := by
  unfold build_from_entities_and_triples
  rw [addEntities_error entities p hmem hbad ⟨[], []⟩]

/-- C10 witness: a concrete entity with a `description` attribute key. -/
theorem build_type_attribute_collision_witness :
    build_from_entities_and_triples
        [("李明", ⟨"Person", "资深工程师", [("description", "x")]⟩)]
        [⟨"李明", "负责", "李明"⟩] = .error typeErrorMsg :=
  build_type_attribute_collision _ _
    ("李明", ⟨"Person", "资深工程师", [("description", "x")]⟩)
    (by decide) (by decide)

/-! ## C6: exactly the relevant pairs take effect -/

lemma lookup_none_of_not_mem_keys {l : List (String × String)} {x : String}
    (h : x ∉ l.map Prod.fst) : l.lookup x = none := by
  induction l with
  | nil => rfl
  | cons p rest ih =>
    rw [List.lookup]
    have hx : (x == p.1) = false := by
      rw [beq_eq_false_iff_ne]
      intro heq
      exact h (heq ▸ List.mem_map_of_mem Prod.fst (List.mem_cons_self p rest))
    rw [hx]
    exact ih (fun hm => h (List.mem_cons_of_mem _ hm))

lemma resolve_filter_agree (ns : List String) :
    ∀ (m : List (String × String)), (m.map Prod.fst).Nodup →
    ∀ n ∈ ns, resolve m n =
      resolve (m.filter fun p => (p.1 != p.2) && ns.contains p.1) n := by
  intro m
  induction m with
  | nil => intro _ n _; rfl
  | cons p rest ih =>
    intro hnodup n hn
    have hk : p.1 ∉ rest.map Prod.fst := by
      rw [List.map_cons, List.nodup_cons] at hnodup
      exact hnodup.1
    have hrest : (rest.map Prod.fst).Nodup := by
      rw [List.map_cons, List.nodup_cons] at hnodup
      exact hnodup.2
    by_cases hnk : n = p.1
    · subst hnk
      have hcont : ns.contains p.1 = true := by simpa using hn
      have hlhs : resolve (p :: rest) p.1 = p.2 := by
        simp [resolve, List.lookup]
      by_cases hkv : p.1 = p.2
      · have hpred : ((p.1 != p.2) && ns.contains p.1) = false := by
          simp [hkv]
        have hnone : (((p :: rest).filter
            fun q => (q.1 != q.2) && ns.contains q.1).lookup p.1) = none := by
          apply lookup_none_of_not_mem_keys
          intro hmem
          obtain ⟨q, hq, hq1⟩ := List.mem_map.mp hmem
          have hq' := List.mem_filter.mp hq
          rcases List.mem_cons.mp hq'.1 with heq | hq''
          · have h2 := hq'.2
            rw [heq, hpred] at h2
            exact absurd h2 (by simp)
          · exact hk (hq1 ▸ List.mem_map_of_mem Prod.fst hq'')
        rw [hlhs]
        simp only [resolve, hnone]
        exact hkv.symm
      · have hpred : ((p.1 != p.2) && ns.contains p.1) = true := by
          simp [hkv, hn]
        rw [hlhs, List.filter_cons, if_pos hpred]
        simp [resolve, List.lookup]
    · have hne : (n == p.1) = false := beq_eq_false_iff_ne.mpr hnk
      have hlhs : resolve (p :: rest) n = resolve rest n := by
        simp [resolve, List.lookup, hne]
      rw [hlhs, List.filter_cons]
      by_cases hpred : ((p.1 != p.2) && ns.contains p.1) = true
      · rw [if_pos hpred]
        have : resolve (p :: rest.filter fun q => (q.1 != q.2) && ns.contains q.1) n
            = resolve (rest.filter fun q => (q.1 != q.2) && ns.contains q.1) n := by
          simp [resolve, List.lookup, hne]
        rw [this]
        exact ih hrest n hn
      · rw [if_neg hpred]
        exact ih hrest n hn

/-- C6: renaming acts through exactly the pairs `(alias, canonical)` with
`alias != canonical` and `alias` a current node — restricting the alias map
to those pairs yields the same graph, so any other pair has no effect (and,
the operation being total, no error is raised) — and the post-merge node
set is exactly the image of the current node set under the map. -/
theorem apply_entity_mapping_exact_pairs (g : KGraph)
    (mapping : List (String × String))
    (hwf : ∀ e ∈ g.edges, e.src ∈ nodeNames g ∧ e.tgt ∈ nodeNames g)
    (hnodup : (mapping.map Prod.fst).Nodup) :
    apply_entity_mapping g mapping =
      apply_entity_mapping g
        (mapping.filter fun p => (p.1 != p.2) && (nodeNames g).contains p.1) ∧
    ∀ x, x ∈ nodeNames (apply_entity_mapping g mapping) ↔
      ∃ n ∈ nodeNames g, resolve mapping n = x := by
  constructor
  · unfold apply_entity_mapping
    have hagree := resolve_filter_agree (nodeNames g) mapping hnodup
    simp only [KGraph.mk.injEq]
    constructor
    · exact congr_foldIns _ _ g.nodes [] hagree
    · apply List.map_congr_left
      intro e he
      obtain ⟨h1, h2⟩ := hwf e he
      rw [hagree e.src h1, hagree e.tgt h2]
  · intro x
    show x ∈ (relabelNodesF (resolve mapping) g.nodes).map Prod.fst ↔ _
    unfold relabelNodesF
    rw [mem_fst_foldIns]
    simp [nodeNames]

/-- C6 witness: a concrete well-formed graph and alias map holding an
identity pair, a pair whose alias is absent from the graph, and one
effective pair. -/
theorem apply_entity_mapping_exact_pairs_witness :
    apply_entity_mapping
        ⟨[("a", ⟨"T", "", []⟩), ("b", ⟨"T", "", []⟩)], [⟨"a", "b", "r"⟩]⟩
        [("a", "a"), ("ghost", "g2"), ("b", "a")] =
      apply_entity_mapping
        ⟨[("a", ⟨"T", "", []⟩), ("b", ⟨"T", "", []⟩)], [⟨"a", "b", "r"⟩]⟩
        ([("a", "a"), ("ghost", "g2"), ("b", "a")].filter fun p =>
          (p.1 != p.2) && (nodeNames
            ⟨[("a", ⟨"T", "", []⟩), ("b", ⟨"T", "", []⟩)],
              [⟨"a", "b", "r"⟩]⟩).contains p.1) ∧
    ∀ x, x ∈ nodeNames (apply_entity_mapping
        ⟨[("a", ⟨"T", "", []⟩), ("b", ⟨"T", "", []⟩)], [⟨"a", "b", "r"⟩]⟩
        [("a", "a"), ("ghost", "g2"), ("b", "a")]) ↔
      ∃ n ∈ nodeNames
          (⟨[("a", ⟨"T", "", []⟩), ("b", ⟨"T", "", []⟩)],
            [⟨"a", "b", "r"⟩]⟩ : KGraph),
        resolve [("a", "a"), ("ghost", "g2"), ("b", "a")] n = x :=
  apply_entity_mapping_exact_pairs _ _ (by decide) (by decide)

/-! ## C8: refinement keeps exactly the well-formed triples -/

/-- C8: `refine_and_relabel` returns exactly the refined triples carrying
all three fields `subject`, `predicate`, `object`, in input order (a
sublist of the raw response, with membership and multiplicity holding
exactly for the well-formed items); everything else is dropped with no
error, recorded only as the diagnostic count `input - output`. -/
theorem refine_keeps_exactly_wellformed_triples (raw : List RawItem) :
    (refine_and_relabel raw).1.Sublist raw ∧
    (∀ it, (refine_and_relabel raw).1.count it =
      if isValidTriple it then raw.count it else 0) ∧
    (refine_and_relabel raw).2 =
      raw.length - (refine_and_relabel raw).1.length := by
  refine ⟨List.filter_sublist raw, ?_, rfl⟩
  intro it
  by_cases h : isValidTriple it = true
  · rw [if_pos h]
    exact List.count_filter h
  · rw [if_neg (by simpa using h)]
    rw [List.count_eq_zero]
    intro hmem
    exact h (List.mem_filter.mp hmem).2

/-! ## C9: density computation and warning -/

lemma assess_density_eq (g : KGraph) :
    (assess_quality g).graph_density =
      if 1 < number_of_nodes g then some (roundTo4 (density g)) else none := by
  unfold assess_quality
  by_cases h0 : number_of_nodes g = 0
  · rw [if_pos h0]
    simp [h0]
  · rw [if_neg h0]

lemma assess_lowDensity_iff (g : KGraph) :
    QWarning.lowDensity ∈ (assess_quality g).warnings ↔
      1 < number_of_nodes g ∧ density g < 1 / 10 := by
  unfold assess_quality
  by_cases h0 : number_of_nodes g = 0
  · rw [if_pos h0]
    simp [h0]
  · rw [if_neg h0]
    have hA : QWarning.lowDensity ∉
        (if 0 < (g.edges.filter fun e => e.src == e.tgt).length then
          [QWarning.selfLoops (g.edges.filter fun e => e.src == e.tgt).length]
        else []) := by
      split <;> simp
    have hB : QWarning.lowDensity ∉
        (if componentCount g ≠ 1 then
          [QWarning.notConnected (componentCount g)] else []) := by
      split <;> simp
    show QWarning.lowDensity ∈ _ ++ _ ++ _ ↔ _
    simp only [List.mem_append]
    constructor
    · rintro ((h | h) | h)
      · exact absurd h hA
      · exact absurd h hB
      · by_cases hn : 1 < number_of_nodes g
        · rw [if_pos hn] at h
          by_cases hd : density g < 1 / 10
          · exact ⟨hn, hd⟩
          · rw [if_neg hd] at h
            cases h
        · rw [if_neg hn] at h
          cases h
    · rintro ⟨hn, hd⟩
      right
      rw [if_pos hn, if_pos hd]
      simp

/-- C9: `assess_quality` reports a density exactly when the graph has more
than one node, computed as `edges / (nodes * (nodes - 1))` rounded to four
decimal places, and emits the low-density warning exactly when the
unrounded density is below `0.1`; in particular the spec's two-node
one-edge scenario graph (produced by `build`) has density `0.5` and
triggers no density warning. -/
theorem assess_quality_density_spec (g : KGraph) :
    ((assess_quality g).graph_density =
      if 1 < number_of_nodes g then some (roundTo4 (density g)) else none) ∧
    (QWarning.lowDensity ∈ (assess_quality g).warnings ↔
      1 < number_of_nodes g ∧ density g < 1 / 10) ∧
    build_from_entities_and_triples scenario_entities scenario_triples =
      .ok scenarioGraph ∧
    (assess_quality scenarioGraph).graph_density = some (1 / 2) ∧
    QWarning.lowDensity ∉ (assess_quality scenarioGraph).warnings := by
  have hdens : density scenarioGraph = 1 / 2 := by
    norm_num [density, scenarioGraph, number_of_nodes]
  have hround : roundTo4 ((1 : ℚ) / 2) = 1 / 2 := by
    have h5 : ((1 : ℚ) / 2) * 10000 = ((5000 : ℤ) : ℚ) := by norm_num
    have hfl : roundHalfEven ((1 : ℚ) / 2 * 10000) = 5000 := by
      unfold roundHalfEven
      rw [h5, Int.floor_intCast]
      norm_num
    unfold roundTo4
    rw [hfl]
    norm_num
  refine ⟨assess_density_eq g, assess_lowDensity_iff g, by rfl, ?_, ?_⟩
  · rw [assess_density_eq scenarioGraph,
      if_pos (by decide : 1 < number_of_nodes scenarioGraph), hdens, hround]
  · rw [assess_lowDensity_iff scenarioGraph]
    rintro ⟨-, hd⟩
    rw [hdens] at hd
    norm_num at hd

/-! ## C7: the orchestrator's halt policy -/

lemma isEmpty_true_iff {α : Type} (l : List α) : l.isEmpty = true ↔ l = [] := by
  cases l <;> simp

/-- C7: the pipeline halts gracefully (no graph produced) exactly when
extraction yields zero candidate triples, or the optimized schema is
empty, or refinement keeps zero valid triples; the role census never
affects the outcome (an empty census is non-fatal), and when the alias map
is empty the run that reaches the build step completes with the raw built
graph and alias application is never invoked. -/
theorem pipeline_halt_policy (so : StageOutputs) :
    ((run_demo_pipeline so).isHalt = true ↔
      so.candidate_triples = [] ∨ so.optimized_schema = [] ∨
        (refine_and_relabel so.raw_refined_triples).1 = []) ∧
    run_demo_pipeline { so with role_analysis := [] } = run_demo_pipeline so ∧
    (so.alias_map = [] → (run_demo_pipeline so).isHalt = false →
      run_demo_pipeline so =
        match build_from_entities_and_triples so.candidate_entities
            ((refine_and_relabel so.raw_refined_triples).1.map toTriple) with
        | .error msg => .crashed msg
        | .ok g => .completed g false) := by
  refine ⟨?_, rfl, ?_⟩
  · by_cases h1 : so.candidate_triples = []
    · have hrun : run_demo_pipeline so = .haltedAtExtraction := by
        unfold run_demo_pipeline
        rw [if_pos ((isEmpty_true_iff _).mpr h1)]
      rw [hrun]
      simp [PipelineOutcome.isHalt, h1]
    · have h1' : so.candidate_triples.isEmpty = false := by
        rcases h : so.candidate_triples.isEmpty with _ | _
        · rfl
        · exact absurd ((isEmpty_true_iff _).mp h) h1
      by_cases h2 : so.optimized_schema = []
      · have hrun : run_demo_pipeline so = .haltedAtSchemaOptimization := by
          unfold run_demo_pipeline
          rw [if_neg (by simp [h1']), if_pos ((isEmpty_true_iff _).mpr h2)]
        rw [hrun]
        simp [PipelineOutcome.isHalt, h2]
      · have h2' : so.optimized_schema.isEmpty = false := by
          rcases h : so.optimized_schema.isEmpty with _ | _
          · rfl
          · exact absurd ((isEmpty_true_iff _).mp h) h2
        by_cases h3 : (refine_and_relabel so.raw_refined_triples).1 = []
        · have hrun : run_demo_pipeline so = .haltedAtRefinement := by
            unfold run_demo_pipeline
            rw [if_neg (by simp [h1']), if_neg (by simp [h2']),
              if_pos ((isEmpty_true_iff _).mpr h3)]
          rw [hrun]
          simp [PipelineOutcome.isHalt, h3]
        · have h3' : (refine_and_relabel so.raw_refined_triples).1.isEmpty = false := by
            rcases h : (refine_and_relabel so.raw_refined_triples).1.isEmpty with _ | _
            · rfl
            · exact absurd ((isEmpty_true_iff _).mp h) h3
          have hnot : ¬ (so.candidate_triples = [] ∨ so.optimized_schema = [] ∨
              (refine_and_relabel so.raw_refined_triples).1 = []) := by
            rintro (h | h | h)
            · exact h1 h
            · exact h2 h
            · exact h3 h
          cases hb : build_from_entities_and_triples so.candidate_entities
              ((refine_and_relabel so.raw_refined_triples).1.map toTriple) with
          | error msg =>
            have hrun : run_demo_pipeline so = .crashed msg := by
              unfold run_demo_pipeline
              rw [if_neg (by simp [h1']), if_neg (by simp [h2']),
                if_neg (by simp [h3']), hb]
            rw [hrun]
            simp [PipelineOutcome.isHalt, hnot]
          | ok g =>
            by_cases ha : so.alias_map = []
            · have hrun : run_demo_pipeline so = .completed g false := by
                unfold run_demo_pipeline
                rw [if_neg (by simp [h1']), if_neg (by simp [h2']),
                  if_neg (by simp [h3']), hb]
                dsimp only
                rw [if_pos ((isEmpty_true_iff _).mpr ha)]
              rw [hrun]
              simp [PipelineOutcome.isHalt, hnot]
            · have ha' : so.alias_map.isEmpty = false := by
                rcases h : so.alias_map.isEmpty with _ | _
                · rfl
                · exact absurd ((isEmpty_true_iff _).mp h) ha
              have hrun : run_demo_pipeline so =
                  .completed (apply_entity_mapping g so.alias_map) true := by
                unfold run_demo_pipeline
                rw [if_neg (by simp [h1']), if_neg (by simp [h2']),
                  if_neg (by simp [h3']), hb]
                dsimp only
                rw [if_neg (by simp [ha'])]
              rw [hrun]
              simp [PipelineOutcome.isHalt, hnot]
  · intro ha hnothalt
    by_cases h1 : so.candidate_triples = []
    · have hrun : run_demo_pipeline so = .haltedAtExtraction := by
        unfold run_demo_pipeline
        rw [if_pos ((isEmpty_true_iff _).mpr h1)]
      rw [hrun] at hnothalt
      simp [PipelineOutcome.isHalt] at hnothalt
    · have h1' : so.candidate_triples.isEmpty = false := by
        rcases h : so.candidate_triples.isEmpty with _ | _
        · rfl
        · exact absurd ((isEmpty_true_iff _).mp h) h1
      by_cases h2 : so.optimized_schema = []
      · have hrun : run_demo_pipeline so = .haltedAtSchemaOptimization := by
          unfold run_demo_pipeline
          rw [if_neg (by simp [h1']), if_pos ((isEmpty_true_iff _).mpr h2)]
        rw [hrun] at hnothalt
        simp [PipelineOutcome.isHalt] at hnothalt
      · have h2' : so.optimized_schema.isEmpty = false := by
          rcases h : so.optimized_schema.isEmpty with _ | _
          · rfl
          · exact absurd ((isEmpty_true_iff _).mp h) h2
        by_cases h3 : (refine_and_relabel so.raw_refined_triples).1 = []
        · have hrun : run_demo_pipeline so = .haltedAtRefinement := by
            unfold run_demo_pipeline
            rw [if_neg (by simp [h1']), if_neg (by simp [h2']),
              if_pos ((isEmpty_true_iff _).mpr h3)]
          rw [hrun] at hnothalt
          simp [PipelineOutcome.isHalt] at hnothalt
        · have h3' : (refine_and_relabel so.raw_refined_triples).1.isEmpty = false := by
            rcases h : (refine_and_relabel so.raw_refined_triples).1.isEmpty with _ | _
            · rfl
            · exact absurd ((isEmpty_true_iff _).mp h) h3
          cases hb : build_from_entities_and_triples so.candidate_entities
              ((refine_and_relabel so.raw_refined_triples).1.map toTriple) with
          | error msg =>
            unfold run_demo_pipeline
            rw [if_neg (by simp [h1']), if_neg (by simp [h2']),
              if_neg (by simp [h3']), hb]
          | ok g =>
            unfold run_demo_pipeline
            rw [if_neg (by simp [h1']), if_neg (by simp [h2']),
              if_neg (by simp [h3']), hb]
            dsimp only
            rw [if_pos ((isEmpty_true_iff _).mpr ha)]

/-- C7 witness: the halt policy evaluated on a concrete run that reaches
the build step with an empty alias map. -/
theorem pipeline_halt_policy_witness :
    run_demo_pipeline soWitness =
      match build_from_entities_and_triples soWitness.candidate_entities
          ((refine_and_relabel soWitness.raw_refined_triples).1.map toTriple) with
      | .error msg => .crashed msg
      | .ok g => .completed g false :=
  (pipeline_halt_policy soWitness).2.2 rfl (by decide)

end KnowledgePipeline
